import Mathlib

/-!
Verification of the hosts-manager text-model editor
(`src/hosts_manager/editor.py`, with its CLI callers in
`src/hosts_manager/cli.py`) against its natural-language specification.

The document is modelled as the source models it: an ordered sequence of
text lines, each line a `List Char` (mirroring a Python `str`).  Python
string primitives used by the source (`strip`, `lower`, `upper`,
`startswith`, `endswith`, `in`, `split`, `splitlines`, `join`,
`re.sub` on the one pattern the source uses) are embedded below,
restricted to the character classes Python actually tests.
-/

/-- Coerce a Lean string literal to the `List Char` representation used
throughout the development. -/
def chars (s : String) : List Char := s.data

/-- Python whitespace for `str.strip()` and the regex class `\s`, on the
ASCII range actually present in hosts files: space, tab, LF, CR,
vertical tab, form feed. -/
def isPySpace (c : Char) : Bool :=
  (c == ' ') || (c == '\t') || (c == '\n') || (c == '\r') ||
  (c == Char.ofNat 11) || (c == Char.ofNat 12)

/-- The characters Python `str.splitlines()` treats as line boundaries:
LF, CR, VT, FF, FS, GS, RS, NEL, LINE SEPARATOR, PARAGRAPH SEPARATOR. -/
def isLineBoundary (c : Char) : Bool :=
  (c == '\n') || (c == '\r') || (c == Char.ofNat 11) || (c == Char.ofNat 12) ||
  (c == Char.ofNat 28) || (c == Char.ofNat 29) || (c == Char.ofNat 30) ||
  (c == Char.ofNat 133) || (c == Char.ofNat 8232) || (c == Char.ofNat 8233)

/-- Right strip: drop trailing characters satisfying `p`. -/
def stripRight (p : Char → Bool) (l : List Char) : List Char :=
  (l.reverse.dropWhile p).reverse

/-- Python `str.strip()` (no argument): drop leading and trailing
whitespace. -/
def pyStrip (l : List Char) : List Char :=
  stripRight isPySpace (l.dropWhile isPySpace)

/-- Python `str.strip("#")`: drop leading and trailing `#` characters. -/
def stripHash (l : List Char) : List Char :=
  stripRight (fun c => c == '#') (l.dropWhile (fun c => c == '#'))

/-- Python `str.lower()` on the ASCII range. -/
def pyLower (l : List Char) : List Char := l.map Char.toLower

/-- Python `str.upper()` on the ASCII range. -/
def pyUpper (l : List Char) : List Char := l.map Char.toUpper

/-- Python `"\n".join(lines)`. -/
def joinNL : List (List Char) → List Char
  | [] => []
  | [l] => l
  | l :: l2 :: rest => l ++ '\n' :: joinNL (l2 :: rest)

/-- The exact text `_write_file` writes for a line sequence:
`"\n".join(new_lines) + "\n"` (editor.py line 56). -/
def render (lines : List (List Char)) : List Char :=
  joinNL lines ++ ['\n']

/-- Python `str.splitlines()` (keepends false): split at every line
boundary character, treating `"\r\n"` as a single boundary; a trailing
boundary does not produce a trailing empty line. -/
def pySplitlines : List Char → List (List Char)
  | [] => []
  | c :: rest =>
    if c == '\r' then
      match rest with
      | '\n' :: rest2 => [] :: pySplitlines rest2
      | [] => [[]]
      | c2 :: rest2 => [] :: pySplitlines (c2 :: rest2)
    else if isLineBoundary c then
      [] :: pySplitlines rest
    else
      match pySplitlines rest with
      | [] => [[c]]
      | l :: ls => (c :: l) :: ls

example : pySplitlines (chars "a\nb") = [chars "a", chars "b"] := by decide
example : pySplitlines (chars "a\r\nb\n") = [chars "a", chars "b"] := by decide
example : pySplitlines (chars "\n") = [[]] := by decide
example : pyStrip (chars "  # WORK #\t") = chars "# WORK #" := by decide
example : stripHash (chars "# WORK #") = chars " WORK " := by decide
example : joinNL [chars "a", chars "b"] = chars "a\nb" := by decide

/-!
## Structural recognition (editor.py)

These definitions transcribe the string tests the source performs while
scanning lines.
-/

/-- The structural section-header test used by `list_sections`
(editor.py line 79) and `toggle_section` (lines 177, 196): the stripped
line starts with `#`, ends with `#`, and is longer than 2 characters. -/
def isSectionHeaderShape (s : List Char) : Bool :=
  List.isPrefixOf ['#'] s && List.isSuffixOf ['#'] s && decide (s.length > 2)

/-- The name a structural header carries:
`stripped_line.strip("#").strip()` (editor.py lines 80 and 178). -/
def sectionNameOf (s : List Char) : List Char :=
  pyStrip (stripHash s)

/-- `any(name.startswith(d) for d in "0123456789")`
(editor.py line 93): the first character is an ASCII digit. -/
def startsWithDigit : List Char → Bool
  | [] => false
  | c :: _ => c.isDigit

/-- `any(stripped_line.startswith(f"# \x7bd\x7d") for d in "0123456789")`
(editor.py lines 200 and 205): the stripped line begins `#`, space,
ASCII digit. -/
def startsWithHashSpaceDigit : List Char → Bool
  | c1 :: c2 :: c3 :: _ => c1 == '#' && c2 == ' ' && c3.isDigit
  | _ => false

/-- The site name extracted from a stripped comment line:
`stripped_line[1:].split("#")[0].strip()` (editor.py lines 91 and 201) —
text after the leading `#` up to the first embedded `#`, trimmed. -/
def extractSiteName (s : List Char) : List Char :=
  pyStrip ((s.drop 1).takeWhile (fun c => !(c == '#')))

/-- The site decision of `list_sections` (editor.py lines 79–94) on one
line.  Returns `some name` when the walk would record `name` as a site.
The branch is an `elif`, so any line passing the structural header test
(line 79) never reaches it; otherwise the stripped line must start with
`#` but not `##`, and the extracted name must be non-empty and not start
with a digit.  (The `and current_section` guard of line 93 is factored
out: the claims quantify over lines already inside a section.) -/
def listSiteName (line : List Char) : Option (List Char) :=
  let s := pyStrip line
  if isSectionHeaderShape s then none
  else if List.isPrefixOf ['#'] s && !(List.isPrefixOf ['#', '#'] s) then
    let name := extractSiteName s
    if name ≠ [] ∧ startsWithDigit name = false then some name else none
  else none

/-- The site decision of the walk in `toggle_section` (editor.py
lines 196–202) on one line.  The walk breaks at structural headers
(line 196) before the site test; otherwise a line whose stripped form
starts with `#` and does not start with `# ` followed by a digit updates
the current site to the extracted name. -/
def toggleSiteName (line : List Char) : Option (List Char) :=
  let s := pyStrip line
  if isSectionHeaderShape s then none
  else if List.isPrefixOf ['#'] s && !(startsWithHashSpaceDigit s) then
    some (extractSiteName s)
  else none

/-- Python substring containment `needle in hay` (used with the
hostname filters and the search query): some suffix of `hay` starts
with `needle`; the empty needle is contained in everything. -/
def pyIn (needle : List Char) (hay : List Char) : Bool :=
  match hay with
  | [] => List.isPrefixOf needle []
  | _ :: rest => List.isPrefixOf needle hay || pyIn needle rest

example : pyIn (chars "foo") (chars "xfoobar") = true := by decide
example : pyIn (chars "foo") (chars "fo obar") = false := by decide
example : pyIn [] (chars "x") = true := by decide

/-!
## Commit workflow (editor.py `_show_diff` / `_write_file`)
-/

/-- Observable side-effecting steps of `_write_file`, in order:
`copy2(self.path, backup_path)` then `self.path.write_text(...)`
(editor.py lines 55–56). -/
inductive Ev where
  | backup
  | write
deriving DecidableEq, Repr

/-- The editor's state as the claims observe it: the on-disk file
content, the content of the `.bak` sibling (none when no backup file
exists), and the in-memory baseline `self.lines`. -/
structure EditorState where
  fileContent : List Char
  backupContent : Option (List Char)
  lines : List (List Char)
deriving DecidableEq, Repr

/-- `input("Apply these changes? [y/N]: ").strip().lower() == "y"`
(editor.py lines 49–50). -/
def confirmIsYes (answer : List Char) : Bool :=
  pyLower (pyStrip answer) == chars "y"

/-- `_write_file` (editor.py lines 42–58).  `new_lines or self.lines`
substitutes the baseline when the argument is `None` or the empty list
(both falsy).  `_show_diff` returns `False` exactly when
`difflib.unified_diff` yields no output, i.e. when the two sequences are
equal; then nothing happens.  A non-`y` answer discards the change.
Otherwise the original is copied to the backup, the file is overwritten
with the rendered lines, and the baseline becomes the new sequence.
The event list records the backup/write steps in program order. -/
def pyWriteFile (st : EditorState) (proposed : Option (List (List Char)))
    (answer : List Char) : EditorState × List Ev :=
  let newLines := match proposed with
    | none => st.lines
    | some nl => if nl = [] then st.lines else nl
  if newLines = st.lines then (st, [])
  else if confirmIsYes answer then
    ({ fileContent := render newLines,
       backupContent := some st.fileContent,
       lines := newLines }, [Ev.backup, Ev.write])
  else (st, [])

/-!
## delete_entry (editor.py lines 128–133)
-/

/-- The proposed sequence built by `delete_entry`:
`[l for l in self.lines if hostname not in l]`. -/
def deleteProposed (lines : List (List Char)) (hostname : List Char) :
    List (List Char) :=
  lines.filter (fun l => !(pyIn hostname l))

/-- The whole `delete_entry` call: when the filtered sequence equals the
original, print the "No entry found" warning (third component `true`)
and stop; otherwise run the commit workflow. -/
def deleteEntryRun (st : EditorState) (hostname : List Char)
    (answer : List Char) : EditorState × List Ev × Bool :=
  let nl := deleteProposed st.lines hostname
  if nl = st.lines then (st, [], true)
  else
    let r := pyWriteFile st (some nl) answer
    (r.1, r.2, false)

/-!
## add_entry (editor.py lines 110–126)
-/

/-- The entry line `f"\x7bip\x7d\t\x7bhostname\x7d"` with
`f"  # \x7bcomment\x7d"` appended when a comment is given
(`if comment:` is falsy for `None` and for the empty string). -/
def mkEntry (ip hostname : List Char) (comment : Option (List Char)) :
    List Char :=
  ip ++ '\t' :: hostname ++
    (match comment with
     | some c => if c = [] then [] else ' ' :: ' ' :: '#' :: ' ' :: c
     | none => [])

/-- `_find_section_index` (editor.py lines 64–68): index of the first
line whose `strip().lower()` equals `f"# \x7bsection\x7d".lower()`. -/
def findSectionIndex (sec : List Char) : List (List Char) → Option Nat
  | [] => none
  | l :: rest =>
    if pyLower (pyStrip l) = pyLower ('#' :: ' ' :: sec) then some 0
    else (findSectionIndex sec rest).map (· + 1)

/-- Python `list.insert(i, x)`: insert before position `i`
(clamping at the end, which never triggers here). -/
def pyInsert (i : Nat) (x : List Char) (l : List (List Char)) :
    List (List Char) :=
  l.take i ++ x :: l.drop i

/-- The new line sequence built by `add_entry` (editor.py lines 110–126).
`if section:` is falsy for `None` and the empty string.  When the
section is not found, the source appends the single element
`f"\n# \x7bsection\x7d"` (one string with an embedded newline) and then
the entry; when found, it inserts the entry at `idx + 1`. -/
def addEntryLines (lines : List (List Char)) (ip hostname : List Char)
    (sec : Option (List Char)) (comment : Option (List Char)) :
    List (List Char) :=
  let entry := mkEntry ip hostname comment
  match sec with
  | none => lines ++ [entry]
  | some s =>
    if s = [] then lines ++ [entry]
    else
      match findSectionIndex s lines with
      | none => lines ++ ['\n' :: '#' :: ' ' :: s, entry]
      | some idx => pyInsert (idx + 1) entry lines

/-!
## comment_entry / uncomment_entry (editor.py lines 135–161)
-/

/-- The match condition of `comment_entry` (editor.py line 139): the
line contains the hostname and its stripped form does not start
with `#`. -/
def commentMatches (hostname line : List Char) : Bool :=
  pyIn hostname line && !(List.isPrefixOf ['#'] (pyStrip line))

/-- The disabling transformation `"# " + line` (editor.py line 140). -/
def commentTransform (line : List Char) : List Char :=
  '#' :: ' ' :: line

/-- The enabling transformation `re.sub(r"^#\s*", "", line)`
(editor.py lines 154 and 211): when the line begins with `#`, remove
that `#` and the following whitespace run; otherwise the line is
unchanged. -/
def uncommentTransform (line : List Char) : List Char :=
  match line with
  | '#' :: rest => rest.dropWhile isPySpace
  | _ => line

/-!
## search_entries (editor.py lines 163–170)
-/

/-- The exception raised by Python `query in line` when `query` is
`None`. -/
inductive PyErr where
  | typeError
deriving DecidableEq, Repr

/-- `search_entries` (editor.py lines 163–170), with the query as the
CLI supplies it (`--query` defaults to `None`).  Returns the 1-based
numbers of matching lines, or the `TypeError` that `None in line`
raises as soon as one line is tested. -/
def searchEntries (lines : List (List Char)) (query : Option (List Char)) :
    Except PyErr (List Nat) :=
  go lines 1
where
  go : List (List Char) → Nat → Except PyErr (List Nat)
    | [], _ => .ok []
    | l :: rest, i =>
      match query with
      | none => .error .typeError
      | some q =>
        match go rest (i + 1) with
        | .error e => .error e
        | .ok r => .ok (if pyIn q l then i :: r else r)

example : searchEntries [chars "127.0.0.1\tlocalhost"] none =
    .error .typeError := rfl
example : searchEntries [] none = .ok [] := rfl
example : searchEntries [chars "127.0.0.1\tlocalhost", chars "# x"]
    (some (chars "local")) = .ok [1] := rfl

/-!
## toggle_section (editor.py lines 172–223) and its CLI callers
-/

/-- The header search of `toggle_section` (editor.py lines 174–181):
index of the first line whose stripped form passes the structural
header test and whose extracted name equals `section.upper()`. -/
def findHeaderIdx (sec : List Char) : List (List Char) → Option Nat
  | [] => none
  | l :: rest =>
    let s := pyStrip l
    if isSectionHeaderShape s ∧ sectionNameOf s = pyUpper sec then some 0
    else (findHeaderIdx sec rest).map (· + 1)

/-- The site filter of the walk (editor.py line 209):
`site is None or (current_site and current_site == site)` — an empty
tracked site is falsy and never matches. -/
def siteFilterOk (site : Option (List Char)) (cur : Option (List Char)) :
    Bool :=
  match site with
  | none => true
  | some st =>
    match cur with
    | none => false
    | some cs => !(cs == []) && cs == st

/-- The walk of `toggle_section` over the lines strictly after the
header (editor.py lines 189–215), carrying the tracked current site.
Returns the rewritten suffix and the count of toggled lines:
a structural header stops the walk (the line and everything after it
are untouched); a site-comment line updates the tracked site and is
never itself toggled; a blank line is skipped; an entry line passing
the site filter is uncommented (when enabling and currently commented)
or prefixed with `# ` (when disabling and currently uncommented),
counting it; anything else is left alone. -/
def toggleWalk (site : Option (List Char)) (enable : Bool) :
    Option (List Char) → List (List Char) → List (List Char) × Nat
  | _, [] => ([], 0)
  | cur, line :: rest =>
    let s := pyStrip line
    if isSectionHeaderShape s then (line :: rest, 0)
    else if List.isPrefixOf ['#'] s && !(startsWithHashSpaceDigit s) then
      let r := toggleWalk site enable (some (extractSiteName s)) rest
      (line :: r.1, r.2)
    else if s = [] ∨ (List.isPrefixOf ['#'] s && !(startsWithHashSpaceDigit s)) = true then
      let r := toggleWalk site enable cur rest
      (line :: r.1, r.2)
    else if siteFilterOk site cur then
      if enable && List.isPrefixOf ['#'] s then
        let r := toggleWalk site enable cur rest
        (uncommentTransform line :: r.1, r.2 + 1)
      else if !enable && !(List.isPrefixOf ['#'] s) then
        let r := toggleWalk site enable cur rest
        (commentTransform line :: r.1, r.2 + 1)
      else
        let r := toggleWalk site enable cur rest
        (line :: r.1, r.2)
    else
      let r := toggleWalk site enable cur rest
      (line :: r.1, r.2)

/-- The messages `toggle_section` can print instead of committing
(editor.py lines 184, 221, 223). -/
inductive ToggleMsg where
  | sectionNotFound (sec : List Char)
  | noChangesNeededForSite (site sec : List Char)
  | noChangesNeededForSection (sec : List Char)
deriving DecidableEq, Repr

/-- Everything a `toggle_section` call produces: the proposed line
sequence, the count of toggled lines, the Python return value
(`some 0` from the explicit `return 0` when the section is not found,
`none` when control falls off the end of the function), whether
`_write_file` was invoked, and the warning printed when nothing was
committed. -/
structure ToggleOut where
  newLines : List (List Char)
  updated : Nat
  ret : Option Nat
  writeCalled : Bool
  msg : Option ToggleMsg
deriving DecidableEq, Repr

/-- `toggle_section` (editor.py lines 172–223).  `if site:` on
line 220 is falsy for `None` and for the empty string. -/
def toggleSection (lines : List (List Char)) (sec : List Char)
    (site : Option (List Char)) (enable : Bool) : ToggleOut :=
  match findHeaderIdx sec lines with
  | none =>
    { newLines := lines, updated := 0, ret := some 0, writeCalled := false,
      msg := some (.sectionNotFound sec) }
  | some i =>
    let r := toggleWalk site enable none (lines.drop (i + 1))
    let nl := lines.take (i + 1) ++ r.1
    if r.2 ≠ 0 then
      { newLines := nl, updated := r.2, ret := none, writeCalled := true,
        msg := none }
    else
      { newLines := nl, updated := 0, ret := none, writeCalled := false,
        msg := some (match site with
          | some st =>
            if st = [] then .noChangesNeededForSection sec
            else .noChangesNeededForSite st sec
          | none => .noChangesNeededForSection sec) }

/-- The summary guard in `disable_section` / `enable_section`
(cli.py lines 68–70 and 78–80): `if updated:` prints the summary, where
`updated` is whatever `toggle_section` returned — truthy only for a
non-`None`, non-zero integer. -/
def callerSummaryPrinted (ret : Option Nat) : Bool :=
  match ret with
  | none => false
  | some n => decide (n ≠ 0)

example :
    (toggleSection [chars "# WORK #", chars "1.2.3.4\thost"]
      (chars "work") none false).newLines =
    [chars "# WORK #", chars "# 1.2.3.4\thost"] := by decide

example :
    (toggleSection [chars "# WORK #", chars "# example.com",
      chars "127.0.0.1\texample.com"]
      (chars "work") (some (chars "example.com")) false).updated = 1 := by
  decide

/-!
## Concrete instances used by witnesses and counterexamples
-/

/-- A one-line hosts file, consistent on disk and in memory. -/
def sampleState : EditorState :=
  { fileContent := render [chars "127.0.0.1\tlocalhost"],
    backupContent := none,
    lines := [chars "127.0.0.1\tlocalhost"] }

/-- A document whose only header is in `_find_section_index`'s own
format `# dev` (no trailing `#`). -/
def sampleDoc : List (List Char) := [chars "# dev", chars "1.2.3.4\thost"]

/-- The outcome of disabling section `work` on a document with one
conventional `# WORK #` header followed by one active entry line. -/
def toggleCex : ToggleOut :=
  toggleSection [chars "# WORK #", chars "1.2.3.4\thost"]
    (chars "work") none false

/-!
## Helper lemmas
-/

theorem beq_cr_eq_false_of_not_boundary {c : Char}
    (h : isLineBoundary c = false) : (c == '\r') = false := by
  by_contra hc
  rw [Bool.not_eq_false, beq_iff_eq] at hc
  subst hc
  exact absurd h (by decide)

theorem isPySpace_eq_false_of_isDigit {c : Char} (h : c.isDigit = true) :
    isPySpace c = false := by
  by_contra hs
  rw [Bool.not_eq_false] at hs
  simp only [isPySpace, Bool.or_eq_true, beq_iff_eq] at hs
  rcases hs with ((((h1 | h1) | h1) | h1) | h1) | h1 <;> subst h1 <;>
    exact absurd h (by decide)

theorem beq_hash_eq_false_of_isDigit {c : Char} (h : c.isDigit = true) :
    (c == '#') = false := by
  by_contra hs
  rw [Bool.not_eq_false, beq_iff_eq] at hs
  subst hs
  exact absurd h (by decide)

theorem dropWhile_append_last {p : Char → Bool} {c : Char}
    (hc : p c = false) (ys : List Char) :
    ∃ zs, List.dropWhile p (ys ++ [c]) = zs ++ [c] := by
  induction ys with
  | nil => exact ⟨[], by simp [List.dropWhile_cons, hc]⟩
  | cons y ys ih =>
    cases hy : p y with
    | true =>
      obtain ⟨zs, hzs⟩ := ih
      exact ⟨zs, by simp [List.dropWhile_cons, hy, hzs]⟩
    | false => exact ⟨y :: ys, by simp [List.dropWhile_cons, hy]⟩

theorem stripRight_cons_of_neg {p : Char → Bool} {c : Char}
    (hc : p c = false) (xs : List Char) :
    ∃ ys, stripRight p (c :: xs) = c :: ys := by
  obtain ⟨zs, hzs⟩ := dropWhile_append_last hc xs.reverse
  refine ⟨zs.reverse, ?_⟩
  unfold stripRight
  rw [List.reverse_cons, hzs, List.reverse_append]
  rfl

theorem joinNL_cons (x : List Char) (ys : List (List Char)) (h : ys ≠ []) :
    joinNL (x :: ys) = x ++ '\n' :: joinNL ys := by
  cases ys with
  | nil => cases h rfl
  | cons y ys2 => rfl

theorem pySplitlines_cons_newline (t : List Char) :
    pySplitlines ('\n' :: t) = [] :: pySplitlines t := by
  have h1 : ('\n' == '\r') = false := by decide
  have h2 : isLineBoundary '\n' = true := by decide
  rw [pySplitlines.eq_def]
  simp only [h1, h2, Bool.false_eq_true, if_false, if_true]

theorem pySplitlines_cons_not_boundary {c : Char}
    (hc : isLineBoundary c = false) (rest : List Char) :
    pySplitlines (c :: rest) =
      match pySplitlines rest with
      | [] => [[c]]
      | l :: ls => (c :: l) :: ls := by
  have hcr : (c == '\r') = false := beq_cr_eq_false_of_not_boundary hc
  rw [pySplitlines.eq_def]
  simp only [hcr, hc, Bool.false_eq_true, if_false]

theorem pySplitlines_append (a t : List Char)
    (ha : ∀ c ∈ a, isLineBoundary c = false) :
    pySplitlines (a ++ '\n' :: t) = a :: pySplitlines t := by
  induction a with
  | nil => rw [List.nil_append, pySplitlines_cons_newline]
  | cons c a' ih =>
    have hc : isLineBoundary c = false := ha c (by simp)
    have ih' := ih (fun x hx => ha x (by simp [hx]))
    rw [List.cons_append, pySplitlines_cons_not_boundary hc, ih']

theorem splitlines_render_clean :
    ∀ ls : List (List Char), ls ≠ [] →
      (∀ l ∈ ls, ∀ c ∈ l, isLineBoundary c = false) →
      pySplitlines (render ls) = ls := by
  intro ls
  induction ls with
  | nil => intro h; cases h rfl
  | cons a rest ih =>
    intro _ hcl
    cases rest with
    | nil =>
      have hr : render [a] = a ++ '\n' :: [] := by simp [render, joinNL]
      rw [hr, pySplitlines_append a [] (fun c hc => hcl a (by simp) c hc)]
      rfl
    | cons b rest2 =>
      have hr : render (a :: b :: rest2) = a ++ '\n' :: render (b :: rest2) := by
        simp [render, joinNL]
      rw [hr, pySplitlines_append a _ (fun c hc => hcl a (by simp) c hc),
        ih (by simp) (fun l hl c hc => hcl l (by simp [hl]) c hc)]

theorem joinNL_newline_elem :
    ∀ (xs : List (List Char)) (h2 : List Char) (ys : List (List Char)),
      joinNL (xs ++ ('\n' :: h2) :: ys) = joinNL (xs ++ [] :: h2 :: ys) := by
  intro xs h2 ys
  induction xs with
  | nil =>
    cases ys with
    | nil => rfl
    | cons y ys2 => rfl
  | cons x xs' ih =>
    have h1 : xs' ++ ('\n' :: h2) :: ys ≠ [] := by simp
    have h2' : xs' ++ [] :: h2 :: ys ≠ [] := by simp
    rw [List.cons_append, List.cons_append, joinNL_cons x _ h1,
      joinNL_cons x _ h2', ih]

/-!
## Claims
-/

/-- C1: the claim says that when the count of toggled lines is non-zero,
`toggle_section` commits and returns that count so the CLI summary is
printed.  On a document with a conventional `# WORK #` header and one
active entry, disabling toggles 1 line and commits, but the function
falls off its end: the return value is `None`, so `disable_section`'s
`if updated:` guard is falsy and the summary is never printed. -/
theorem toggle_section_missing_return :
    toggleCex.updated = 1 ∧ toggleCex.writeCalled = true ∧
    toggleCex.ret = none ∧ callerSummaryPrinted toggleCex.ret = false ∧
    toggleCex.newLines = [chars "# WORK #", chars "# 1.2.3.4\thost"] := by
  decide

/-- C3: the claim says an absent (`None`) query must not raise.  But
`search_entries` evaluates `query in line` for each line, and
`None in line` raises `TypeError`, so any document with at least one
line raises; only the empty document avoids the raise (vacuously). -/
theorem search_absent_query_raises :
    searchEntries [chars "127.0.0.1\tlocalhost"] none =
      .error .typeError ∧
    searchEntries [] none = .ok [] :=
  ⟨rfl, rfl⟩

/-- C9 counterexample: the claim quantifies over every line sequence,
but a line containing an embedded newline (which `add_entry`'s
section-creation branch itself produces) splits into two lines on
reload. -/
theorem write_reload_roundtrip_cex :
    pySplitlines (render [chars "\n# A"]) = [[], chars "# A"] ∧
    [[], chars "# A"] ≠ [chars "\n# A"] := by decide

/-- C9 (amended): writing a nonempty line sequence whose lines contain
no line-boundary characters, then reloading, yields the same
sequence. -/
theorem write_reload_roundtrip (ls : List (List Char)) (hne : ls ≠ [])
    (hcl : ∀ l ∈ ls, ∀ c ∈ l, isLineBoundary c = false) :
    pySplitlines (render ls) = ls :=
  splitlines_render_clean ls hne hcl

/-- Witness for the amended round-trip at a concrete one-line file. -/
theorem write_reload_roundtrip_witness :
    pySplitlines (render [chars "127.0.0.1\tlocalhost"]) =
      [chars "127.0.0.1\tlocalhost"] :=
  write_reload_roundtrip [chars "127.0.0.1\tlocalhost"] (by decide)
    (by decide)

/-- C4 counterexample: a line with leading whitespace is matched and
disabled by `comment_entry`, but re-enabling strips the whole
whitespace run after the added `#`, losing the original leading
whitespace. -/
theorem comment_uncomment_cex :
    commentMatches (chars "foo") (chars " 1.1.1.1 foo") = true ∧
    uncommentTransform (commentTransform (chars " 1.1.1.1 foo")) =
      chars "1.1.1.1 foo" ∧
    chars "1.1.1.1 foo" ≠ chars " 1.1.1.1 foo" := by decide

/-- C4 (amended): for every line matched and disabled by
`comment_entry` whose text does not begin with a whitespace character,
applying `uncomment_entry`'s transformation to the disabled result
reproduces the original line exactly. -/
theorem comment_uncomment_inverse (h line : List Char)
    (_hm : commentMatches h line = true)
    (hws : line.head?.all (fun c => !(isPySpace c)) = true) :
    uncommentTransform (commentTransform line) = line := by
  show (' ' :: line).dropWhile isPySpace = line
  rw [List.dropWhile_cons_of_pos (by decide)]
  cases hl : line with
  | nil => rfl
  | cons c rest =>
    have hc : isPySpace c = false := by
      rw [hl] at hws
      simpa using hws
    rw [List.dropWhile_cons_of_neg (by simp [hc])]

/-- Witness for the amended inverse at a concrete entry line. -/
theorem comment_uncomment_inverse_witness :
    uncommentTransform (commentTransform (chars "1.1.1.1\tfoo")) =
      chars "1.1.1.1\tfoo" :=
  comment_uncomment_inverse (chars "foo") (chars "1.1.1.1\tfoo")
    (by decide) (by decide)

/-- Decomposition of a positive `startsWithHashSpaceDigit` test. -/
theorem startsWithHashSpaceDigit_eq_true {s : List Char}
    (h : startsWithHashSpaceDigit s = true) :
    ∃ c3 rest, s = '#' :: ' ' :: c3 :: rest ∧ c3.isDigit = true := by
  rcases s with _ | ⟨c1, _ | ⟨c2, _ | ⟨c3, rest⟩⟩⟩
  · simp [startsWithHashSpaceDigit] at h
  · simp [startsWithHashSpaceDigit] at h
  · simp [startsWithHashSpaceDigit] at h
  · simp only [startsWithHashSpaceDigit, Bool.and_eq_true, beq_iff_eq] at h
    obtain ⟨⟨h1, h2⟩, h3⟩ := h
    subst h1
    subst h2
    exact ⟨c3, rest, rfl, h3⟩

/-- On a stripped line that begins `#`, space, digit, the extracted
site name starts with that digit. -/
theorem extractSiteName_digit_of_hashSpaceDigit {s : List Char}
    (h : startsWithHashSpaceDigit s = true) :
    startsWithDigit (extractSiteName s) = true := by
  obtain ⟨c3, rest, hdec, hdig⟩ := startsWithHashSpaceDigit_eq_true h
  subst hdec
  unfold extractSiteName
  have hd : (('#' :: ' ' :: c3 :: rest).drop 1) = ' ' :: c3 :: rest := rfl
  rw [hd]
  rw [List.takeWhile_cons_of_pos (by decide)]
  rw [List.takeWhile_cons_of_pos
    (by rw [beq_hash_eq_false_of_isDigit hdig]; rfl)]
  unfold pyStrip
  rw [List.dropWhile_cons_of_pos (by decide)]
  rw [List.dropWhile_cons_of_neg
    (by simp [isPySpace_eq_false_of_isDigit hdig])]
  obtain ⟨ys, hys⟩ :=
    stripRight_cons_of_neg (isPySpace_eq_false_of_isDigit hdig)
      (rest.takeWhile (fun c => !(c == '#')))
  rw [hys]
  simpa [startsWithDigit] using hdig

/-- C5 counterexample: inside a section, the commented address line
`#1.2.3.4 x` (no space after the `#`) is rejected as a site by
`list_sections` (its extracted name starts with a digit), but
`toggle_section`'s walk — which only rejects lines starting with `# `
followed by a digit — accepts it and sets the current site to
`1.2.3.4 x`. -/
theorem site_decision_divergence :
    listSiteName (chars "#1.2.3.4 x") = none ∧
    toggleSiteName (chars "#1.2.3.4 x") = some (chars "1.2.3.4 x") := by
  decide

/-- C5 (amended): every line `list_sections` records as a site is also
recognized by `toggle_section`'s walk, with the same extracted name
(the converse fails: the walk also accepts doubled `##` lines, empty
names, and digit-initial names lacking the `# ` spacing). -/
theorem site_decision_refines (line n : List Char)
    (h : listSiteName line = some n) : toggleSiteName line = some n := by
  simp only [listSiteName] at h
  simp only [toggleSiteName]
  by_cases hh : isSectionHeaderShape (pyStrip line) = true
  · rw [if_pos hh] at h
    exact absurd h (by simp)
  · rw [if_neg hh] at h
    rw [if_neg hh]
    by_cases hp : (List.isPrefixOf ['#'] (pyStrip line) &&
        !(List.isPrefixOf ['#', '#'] (pyStrip line))) = true
    · rw [if_pos hp] at h
      by_cases hn : (extractSiteName (pyStrip line) ≠ [] ∧
          startsWithDigit (extractSiteName (pyStrip line)) = false)
      · rw [if_pos hn] at h
        have hname : extractSiteName (pyStrip line) = n :=
          Option.some.inj h
        have h1 : List.isPrefixOf ['#'] (pyStrip line) = true :=
          (Bool.and_eq_true _ _ |>.mp hp).1
        have hsd : startsWithHashSpaceDigit (pyStrip line) = false := by
          cases hsd : startsWithHashSpaceDigit (pyStrip line) with
          | false => rfl
          | true =>
            exact absurd (extractSiteName_digit_of_hashSpaceDigit hsd)
              (by rw [hn.2]; simp)
        rw [if_pos (by rw [h1, hsd]; rfl), hname]
      · rw [if_neg hn] at h
        exact absurd h (by simp)
    · rw [if_neg hp] at h
      exact absurd h (by simp)

/-- Witness: a well-formed site comment is recognized identically by
both walks. -/
theorem site_decision_refines_witness :
    toggleSiteName (chars "# booger.com") = some (chars "booger.com") :=
  site_decision_refines (chars "# booger.com") (chars "booger.com")
    (by decide)

/-- `_find_section_index` finds the first line whose stripped,
lower-cased text equals `# name` lower-cased, and nothing earlier
matches. -/
theorem findSectionIndex_some (sec : List Char) :
    ∀ (lines : List (List Char)) (idx : Nat),
      findSectionIndex sec lines = some idx →
      (∃ l, lines[idx]? = some l ∧
        pyLower (pyStrip l) = pyLower ('#' :: ' ' :: sec)) ∧
      (∀ j l, j < idx → lines[j]? = some l →
        pyLower (pyStrip l) ≠ pyLower ('#' :: ' ' :: sec)) := by
  intro lines
  induction lines with
  | nil => intro idx h; simp [findSectionIndex] at h
  | cons l rest ih =>
    intro idx h
    simp only [findSectionIndex] at h
    by_cases hc : pyLower (pyStrip l) = pyLower ('#' :: ' ' :: sec)
    · rw [if_pos hc] at h
      have h0 : idx = 0 := (Option.some.inj h).symm
      subst h0
      refine ⟨⟨l, by simp, hc⟩, ?_⟩
      intro j lj hj _
      exact absurd hj (Nat.not_lt_zero j)
    · rw [if_neg hc] at h
      cases hr : findSectionIndex sec rest with
      | none => rw [hr] at h; simp at h
      | some idx2 =>
        rw [hr] at h
        simp only [Option.map_some'] at h
        have hidx : idx = idx2 + 1 := (Option.some.inj h).symm
        subst hidx
        obtain ⟨⟨l2, hl2, hm⟩, hfirst⟩ := ih idx2 hr
        refine ⟨⟨l2, by simpa using hl2, hm⟩, ?_⟩
        intro j lj hj hlj
        cases j with
        | zero =>
          have hlij : l = lj := by simpa using hlj
          rw [← hlij]
          exact hc
        | succ j2 =>
          exact hfirst j2 lj (by omega) (by simpa using hlj)

/-- C2 counterexample: a document whose only line is the conventional
header `# WORK #` with name `WORK`.  `add_entry` with section `WORK`
does not insert after it — `_find_section_index` compares against
`# work` without the trailing `#`, misses, and a fresh block is
appended instead. -/
theorem add_entry_conventional_header_cex :
    isSectionHeaderShape (pyStrip (chars "# WORK #")) = true ∧
    sectionNameOf (pyStrip (chars "# WORK #")) = chars "WORK" ∧
    addEntryLines [chars "# WORK #"] (chars "1.1.1.1") (chars "foo")
        (some (chars "WORK")) none =
      [chars "# WORK #", chars "\n# WORK", chars "1.1.1.1\tfoo"] ∧
    addEntryLines [chars "# WORK #"] (chars "1.1.1.1") (chars "foo")
        (some (chars "WORK")) none ≠
      [chars "# WORK #", chars "1.1.1.1\tfoo"] := by decide

/-- C2 (amended): when `_find_section_index` finds a line — the first
line whose stripped, lower-cased text equals `# NAME` lower-cased,
a format without the conventional trailing `#` — `add_entry` inserts
the entry line immediately after it, leaving every other line's
relative order unchanged (the result is the untouched prefix up to and
including the matched line, the entry, then the untouched rest). -/
theorem add_entry_insert_after_found (lines : List (List Char))
    (ip host sec : List Char) (c : Option (List Char)) (idx : Nat)
    (hs : sec ≠ []) (hfind : findSectionIndex sec lines = some idx) :
    (∃ l, lines[idx]? = some l ∧
      pyLower (pyStrip l) = pyLower ('#' :: ' ' :: sec)) ∧
    (∀ j l, j < idx → lines[j]? = some l →
      pyLower (pyStrip l) ≠ pyLower ('#' :: ' ' :: sec)) ∧
    addEntryLines lines ip host (some sec) c =
      lines.take (idx + 1) ++ mkEntry ip host c :: lines.drop (idx + 1) := by
  obtain ⟨h1, h2⟩ := findSectionIndex_some sec lines idx hfind
  refine ⟨h1, h2, ?_⟩
  simp only [addEntryLines]
  rw [if_neg hs, hfind]
  rfl

/-- Witness: inserting into `sampleDoc` right after its `# dev` line
(matched case-insensitively by the request `DEV`). -/
theorem add_entry_insert_after_found_witness :
    addEntryLines sampleDoc (chars "10.0.0.1") (chars "foo.test")
        (some (chars "DEV")) none =
      sampleDoc.take 1 ++
        mkEntry (chars "10.0.0.1") (chars "foo.test") none ::
          sampleDoc.drop 1 :=
  (add_entry_insert_after_found sampleDoc (chars "10.0.0.1")
    (chars "foo.test") (chars "DEV") none 0 (by decide) (by decide)).2.2

/-- C6 counterexample: on the empty document, `add_entry` with unfound
section `WORK` appends two list elements, not three: the first is the
single string `"\n# WORK"` with an embedded newline, not a blank
separator line followed by a header line.  The created header also
lacks the trailing ` #`, so it does not pass the structural
section-header test used by `list_sections` and `toggle_section`. -/
theorem add_entry_new_section_cex :
    addEntryLines [] (chars "1.1.1.1") (chars "foo")
        (some (chars "WORK")) none =
      [chars "\n# WORK", chars "1.1.1.1\tfoo"] ∧
    addEntryLines [] (chars "1.1.1.1") (chars "foo")
        (some (chars "WORK")) none ≠
      [[], chars "# WORK", chars "1.1.1.1\tfoo"] ∧
    isSectionHeaderShape (pyStrip (chars "# WORK")) = false := by decide

/-- C6 (amended): when the section is not found, `add_entry` appends
exactly two elements — one string holding a newline followed by
`# SECTION`, then the entry line.  Once committed and reloaded
(for a document whose lines hold no line-boundary characters), this
reads back as a blank separator line, the line `# SECTION`, and the
entry line at the end of the document. -/
theorem add_entry_new_section_appends (lines : List (List Char))
    (ip host sec : List Char) (c : Option (List Char))
    (hs : sec ≠ []) (hfind : findSectionIndex sec lines = none)
    (hcl : ∀ l ∈ lines, ∀ ch ∈ l, isLineBoundary ch = false)
    (hsc : ∀ ch ∈ sec, isLineBoundary ch = false)
    (hec : ∀ ch ∈ mkEntry ip host c, isLineBoundary ch = false) :
    addEntryLines lines ip host (some sec) c =
      lines ++ ['\n' :: '#' :: ' ' :: sec, mkEntry ip host c] ∧
    pySplitlines (render (addEntryLines lines ip host (some sec) c)) =
      lines ++ [[], '#' :: ' ' :: sec, mkEntry ip host c] := by
  have heq : addEntryLines lines ip host (some sec) c =
      lines ++ ['\n' :: '#' :: ' ' :: sec, mkEntry ip host c] := by
    simp only [addEntryLines]
    rw [if_neg hs, hfind]
  refine ⟨heq, ?_⟩
  rw [heq]
  have hrend :
      render (lines ++ ['\n' :: '#' :: ' ' :: sec, mkEntry ip host c]) =
      render (lines ++ [[], '#' :: ' ' :: sec, mkEntry ip host c]) := by
    unfold render
    rw [joinNL_newline_elem lines ('#' :: ' ' :: sec) [mkEntry ip host c]]
  rw [hrend]
  apply splitlines_render_clean
  · simp
  · intro l hl ch hch
    rcases List.mem_append.mp hl with hmem | hmem
    · exact hcl l hmem ch hch
    · simp only [List.mem_cons, List.mem_singleton] at hmem
      rcases hmem with h0 | h0 | h0 | h0
      · subst h0; simp at hch
      · subst h0
        rcases List.mem_cons.mp hch with hc0 | hc0
        · subst hc0; decide
        · rcases List.mem_cons.mp hc0 with hc1 | hc1
          · subst hc1; decide
          · exact hsc ch hc1
      · subst h0; exact hec ch hch
      · simp at h0

/-- Witness: creating section `WORK` at the end of `sampleDoc` and
reading the committed file back. -/
theorem add_entry_new_section_appends_witness :
    pySplitlines (render (addEntryLines sampleDoc (chars "10.0.0.1")
        (chars "foo.test") (some (chars "WORK")) none)) =
      sampleDoc ++ [[], '#' :: ' ' :: chars "WORK",
        mkEntry (chars "10.0.0.1") (chars "foo.test") none] :=
  (add_entry_new_section_appends sampleDoc (chars "10.0.0.1")
    (chars "foo.test") (chars "WORK") none (by decide) (by decide)
    (by decide) (by decide) (by decide)).2

/-- C7: `delete_entry` proposes exactly the lines not containing the
hostname substring, in their original order (a sublist of the
document); every surviving line is free of the hostname and every
hostname-free line survives; and when no line contains the hostname it
prints the "no entry found" warning and returns without invoking the
commit workflow — no event, no backup, state untouched. -/
theorem delete_entry_spec (st : EditorState) (h ans : List Char) :
    List.Sublist (deleteProposed st.lines h) st.lines ∧
    (∀ l ∈ deleteProposed st.lines h, pyIn h l = false) ∧
    (∀ l ∈ st.lines, pyIn h l = false → l ∈ deleteProposed st.lines h) ∧
    ((∀ l ∈ st.lines, pyIn h l = false) →
      deleteEntryRun st h ans = (st, [], true)) := by
  refine ⟨List.filter_sublist _, ?_, ?_, ?_⟩
  · intro l hl
    have hp := (List.mem_filter.mp hl).2
    simpa using hp
  · intro l hl hf
    exact List.mem_filter.mpr ⟨hl, by simp [hf]⟩
  · intro hall
    have hfil : deleteProposed st.lines h = st.lines := by
      unfold deleteProposed
      apply List.filter_eq_self.mpr
      intro a ha
      simp [hall a ha]
    simp [deleteEntryRun, hfil]

/-- Witness: deleting a hostname that appears nowhere is a no-op. -/
theorem delete_entry_spec_witness :
    deleteEntryRun sampleState (chars "example.com") (chars "y") =
      (sampleState, [], true) :=
  (delete_entry_spec sampleState (chars "example.com") (chars "y")).2.2.2
    (by decide)

/-- C8: the commit workflow leaves the file, backup and baseline
untouched when the proposed sequence equals the baseline (empty diff)
or when the confirmation answer is not `y`; when there is a diff and
the caller confirms, the events are exactly backup-then-write, the
backup holds the pre-change file content, the file holds the rendered
new sequence, and the baseline becomes the new sequence. -/
theorem write_file_commit_protocol (st : EditorState)
    (nl : List (List Char)) (ans : List Char) :
    (nl = st.lines → pyWriteFile st (some nl) ans = (st, [])) ∧
    (confirmIsYes ans = false → pyWriteFile st (some nl) ans = (st, [])) ∧
    (nl ≠ [] → nl ≠ st.lines → confirmIsYes ans = true →
      pyWriteFile st (some nl) ans =
        ({ fileContent := render nl,
           backupContent := some st.fileContent,
           lines := nl }, [Ev.backup, Ev.write])) := by
  refine ⟨?_, ?_, ?_⟩
  · intro he
    by_cases h0 : nl = []
    · simp [pyWriteFile, h0]
    · simp [pyWriteFile, h0, he]
  · intro hd
    by_cases h0 : nl = []
    · simp [pyWriteFile, h0]
    · by_cases he : nl = st.lines
      · simp [pyWriteFile, h0, he]
      · simp [pyWriteFile, h0, he, hd]
  · intro h0 hne hy
    simp [pyWriteFile, h0, hne, hy]

/-- Witness: a confirmed disable of the sample file's only entry backs
up the old content, writes the new rendering, and moves the
baseline. -/
theorem write_file_commit_protocol_witness :
    pyWriteFile sampleState (some [chars "# 127.0.0.1\tlocalhost"])
        (chars "y") =
      ({ fileContent := render [chars "# 127.0.0.1\tlocalhost"],
         backupContent := some sampleState.fileContent,
         lines := [chars "# 127.0.0.1\tlocalhost"] },
       [Ev.backup, Ev.write]) :=
  (write_file_commit_protocol sampleState
    [chars "# 127.0.0.1\tlocalhost"] (chars "y")).2.2
    (by decide) (by decide) (by decide)

/-- C10: a proposed empty sequence is falsy, so
`new_lines or self.lines` substitutes the unchanged baseline: the
commit workflow sees an empty diff, reports no changes, and performs
no backup and no write — and in particular `delete_entry` on a
non-empty document in which every line contains the hostname commits
nothing and never truncates the file. -/
theorem empty_proposal_noop (st : EditorState) (h ans : List Char) :
    pyWriteFile st (some []) ans = (st, []) ∧
    (st.lines ≠ [] → (∀ l ∈ st.lines, pyIn h l = true) →
      deleteEntryRun st h ans = (st, [], false)) := by
  have h1 : pyWriteFile st (some []) ans = (st, []) := by
    simp [pyWriteFile]
  refine ⟨h1, ?_⟩
  intro hne hall
  have hfil : deleteProposed st.lines h = [] := by
    unfold deleteProposed
    apply List.filter_eq_nil_iff.mpr
    intro a ha
    simp [hall a ha]
  have hnem : deleteProposed st.lines h ≠ st.lines := by
    rw [hfil]
    exact fun hx => hne hx.symm
  simp [deleteEntryRun, hfil, hnem, h1, hne]

/-- Witness: deleting `localhost` from a file whose every line contains
it proposes the empty sequence and leaves everything untouched. -/
theorem empty_proposal_noop_witness :
    deleteEntryRun sampleState (chars "localhost") (chars "y") =
      (sampleState, [], false) :=
  (empty_proposal_noop sampleState (chars "localhost") (chars "y")).2
    (by decide) (by decide)
